import Mathlib

/-!
Verification of `scripts/youtube_utils.py`.

The file embeds the two Python functions `download_youtube_audio` and
`add_metadata_to_mp3` as pure Lean functions.  Effects are made explicit:

* the filesystem is an association list from paths to audio files;
* console output is an accumulated list of printed lines;
* a Python exception is a `PyErr` value, and each `try`-block is a
  `..._body` function returning `Except PyErr _`; the enclosing function
  is a wrapper that pattern-matches on the body result, mirroring the
  `except Exception` boundary of the source;
* the external extractor (`yt_dlp.YoutubeDL.extract_info` with
  `download=True`) is a parameter of type `ExtractResult`: it either
  raises, or returns a metadata dictionary and possibly deposits the
  transcoded mp3 file at the expected output path;
* mutagen ID3 tag containers are dictionaries keyed by the frame hash key
  (`"TIT2"`, `"TPE1"`, `"TALB"`, `"COMM:" ++ desc ++ ":" ++ lang`);
  `tags.add` assigns the frame under its hash key, replacing an existing
  entry in place and appending otherwise, exactly like a Python dict set.
-/

namespace YoutubeUtils

/-! ### Keyed association lists (Python dict / mutagen ID3 semantics) -/

/-- First element of `l` whose key is `k`. -/
def getBy (key : α → String) : List α → String → Option α
  | [], _ => none
  | x :: xs, k => if key x = k then some x else getBy key xs k

/-- Whether some element of `l` has key `k`. -/
def hasKey (key : α → String) (k : String) : List α → Bool
  | [] => false
  | x :: xs => if key x = k then true else hasKey key k xs

/-- Replace, in place, every element whose key equals `key a` by `a`. -/
def replaceBy (key : α → String) (a : α) : List α → List α
  | [] => []
  | x :: xs => (if key x = key a then a else x) :: replaceBy key a xs

/-- Dictionary assignment: replace the entry at key `key a` in place if
present, else append `a` at the end (Python dict insertion order). -/
def setBy (key : α → String) (l : List α) (a : α) : List α :=
  if hasKey key (key a) l then replaceBy key a l else l ++ [a]

/-! ### ID3 frames (mutagen) -/

/-- The four ID3 frame constructors used by the script. -/
inductive Frame where
  | TIT2 (text : String)
  | TPE1 (text : String)
  | TALB (text : String)
  | COMM (lang : String) (desc : String) (text : String)
  deriving DecidableEq, Repr

/-- Mutagen hash key of a frame: text frames use the frame id, comment
frames use `COMM:{desc}:{lang}` (braces here denote interpolation). -/
def Frame.hashKey : Frame → String
  | .TIT2 _ => "TIT2"
  | .TPE1 _ => "TPE1"
  | .TALB _ => "TALB"
  | .COMM lang desc _ => "COMM:" ++ desc ++ ":" ++ lang

/-- An ID3 tag container: a dictionary of frames keyed by hash key. -/
abbrev Tags := List Frame

/-- `audio.tags.add(frame)`: dictionary assignment under the hash key. -/
def Tags.add (t : Tags) (f : Frame) : Tags :=
  setBy Frame.hashKey t f

/-- Look up the frame stored under hash key `k`. -/
def Tags.getFrame (t : Tags) (k : String) : Option Frame :=
  getBy Frame.hashKey t k

/-! ### Filesystem -/

/-- An mp3 file on disk: whether mutagen can parse it, and its tag
container (`none` models a file with no ID3 block yet). -/
structure AudioFile where
  parsable : Bool
  tags : Option Tags
  deriving DecidableEq, Repr

/-- The filesystem: paths mapped to audio files. -/
abbrev FS := List (String × AudioFile)

/-- Write `f` at `path` (overwrites in place, like the OS). -/
def fsSet (fs : FS) (path : String) (f : AudioFile) : FS :=
  setBy Prod.fst fs (path, f)

/-- Read the file at `path`. -/
def fsGet (fs : FS) (path : String) : Option AudioFile :=
  (getBy Prod.fst fs path).map Prod.snd

/-- `os.path.exists`. -/
def pathExists (fs : FS) (path : String) : Bool :=
  (fsGet fs path).isSome

/-- `os.path.join` for the shapes used by the script. -/
def pathJoin (dir base : String) : String :=
  dir ++ "/" ++ base

/-! ### Python-side values -/

/-- The exceptions that can arise in the embedded fragment. -/
inductive PyErr where
  | keyError (key : String)
  | fileNotFound (msg : String)
  | extractionError (msg : String)
  | mp3Error (msg : String)
  deriving DecidableEq, Repr

/-- `str(e)` for the diagnostic prints. -/
def PyErr.message : PyErr → String
  | .keyError k => "KeyError: " ++ k
  | .fileNotFound m => m
  | .extractionError m => m
  | .mp3Error m => m

/-- The extractor metadata record `info` (a Python dict of strings). -/
abbrev InfoDict := List (String × String)

/-- `info[k]` lookup result (`none` models a `KeyError` site). -/
def dictLookup (d : InfoDict) (k : String) : Option String :=
  (getBy Prod.fst d k).map Prod.snd

/-- The `metadata` dict built on lines 30-34 of the script. -/
structure Metadata where
  title : String
  author : String
  description : String
  deriving DecidableEq, Repr

/-- The success mapping returned by `download_youtube_audio`
(lines 40-45): exactly the keys `audio_path`, `title`, `author`, `url`. -/
structure DLResult where
  audio_path : String
  title : String
  author : String
  url : String
  deriving DecidableEq, Repr

/-- Behaviour of `ydl.extract_info(url, download=True)` on this run:
either it raises, or it returns the metadata dict `info` and, when
`produced = some f`, deposits the transcoded file `f` at the expected
output path `{output_path}/{random_filename}.mp3`
(`produced = none` models a transcode that left no file there). -/
inductive ExtractResult where
  | raises (e : PyErr)
  | returns (info : InfoDict) (produced : Option AudioFile)

/-- The `ydl_opts` dictionary (lines 10-18), kept as data for fidelity. -/
structure YdlOpts where
  format : String
  postprocessorKey : String
  preferredcodec : String
  preferredquality : String
  outtmpl : String
  deriving DecidableEq, Repr

def ydl_opts (output_path random_filename : String) : YdlOpts :=
  { format := "bestaudio/best"
    postprocessorKey := "FFmpegExtractAudio"
    preferredcodec := "mp3"
    preferredquality := "192"
    outtmpl := pathJoin output_path (random_filename ++ ".%(ext)s") }

/-- Line 24: `os.path.join(output_path, f"{random_filename}.mp3")`. -/
def audio_path_of (output_path random_filename : String) : String :=
  pathJoin output_path (random_filename ++ ".mp3")

/-! ### The Tagger: `add_metadata_to_mp3` (lines 50-66) -/

/-- Lines 57-61: the five `audio.tags.add(...)` calls, in source order. -/
def apply_frames (t : Tags) (metadata : Metadata) (url : String) : Tags :=
  ((((t.add (Frame.TIT2 metadata.title)).add
      (Frame.TPE1 metadata.author)).add
      (Frame.TALB "YouTube")).add
      (Frame.COMM "eng" "desc" metadata.description)).add
      (Frame.COMM "eng" "url" url)

/-- The `try`-block of `add_metadata_to_mp3` (lines 52-64).
`MP3(mp3_path, ID3=ID3)` raises when the file is absent or unparsable;
`audio.add_tags()` supplies an empty container when `tags is None`;
`audio.save()` persists the container back to the file. -/
def add_metadata_body (fs : FS) (mp3_path : String) (metadata : Metadata)
    (url : String) : FS × List String × Except PyErr Unit :=
  match fsGet fs mp3_path with
  | none => (fs, [], Except.error (PyErr.fileNotFound mp3_path))
  | some f =>
    if f.parsable then
      (fsSet fs mp3_path
        ⟨f.parsable, some (apply_frames (f.tags.getD []) metadata url)⟩,
       ["Metadata added successfully to MP3."],
       Except.ok ())
    else
      (fs, [], Except.error (PyErr.mp3Error mp3_path))

/-- `add_metadata_to_mp3`: the body wrapped in the `except Exception`
boundary of lines 65-66.  It returns nothing; its effects are the
filesystem and the printed lines. -/
def add_metadata_to_mp3 (fs : FS) (mp3_path : String) (metadata : Metadata)
    (url : String) : FS × List String :=
  match add_metadata_body fs mp3_path metadata url with
  | (fs1, out, Except.ok _) => (fs1, out)
  | (fs1, out, Except.error e) =>
      (fs1, out ++ ["An error occurred while adding metadata to MP3: "
                      ++ e.message])

/-! ### The Fetcher: `download_youtube_audio` (lines 7-48) -/

/-- The `try`-block of `download_youtube_audio` (lines 20-45).
`random_filename` stands for the `str(uuid.uuid4())` drawn on line 8 and
`env` for the behaviour of the external extractor on this run. -/
def download_body (url output_path random_filename : String)
    (env : ExtractResult) (fs : FS) :
    FS × List String × Except PyErr DLResult :=
  match env with
  | ExtractResult.raises e => (fs, [], Except.error e)
  | ExtractResult.returns info produced =>
    let audio_path := audio_path_of output_path random_filename
    let fs1 := match produced with
      | some f => fsSet fs audio_path f
      | none => fs
    if pathExists fs1 audio_path then
      match dictLookup info "title" with
      | none => (fs1, [], Except.error (PyErr.keyError "title"))
      | some title =>
        match dictLookup info "uploader" with
        | none => (fs1, [], Except.error (PyErr.keyError "uploader"))
        | some uploader =>
          let metadata : Metadata :=
            ⟨title, uploader, (dictLookup info "description").getD ""⟩
          let tagged := add_metadata_to_mp3 fs1 audio_path metadata url
          (tagged.1,
           tagged.2 ++
             ["Downloaded and extracted audio successfully: " ++ title,
              "File saved as: " ++ audio_path],
           Except.ok ⟨audio_path, title, uploader, url⟩)
    else
      (fs1, [],
       Except.error (PyErr.fileNotFound
         ("Could not find the downloaded MP3 file: " ++ audio_path)))

/-- `download_youtube_audio`: the body wrapped in the `except Exception`
boundary of lines 46-48, which logs and converts to `None`. -/
def download_youtube_audio (url output_path random_filename : String)
    (env : ExtractResult) (fs : FS) :
    FS × List String × Option DLResult :=
  match download_body url output_path random_filename env fs with
  | (fs1, out, Except.ok r) => (fs1, out, some r)
  | (fs1, out, Except.error e) =>
      (fs1, out ++ ["An error occurred while downloading YouTube audio: "
                      ++ e.message],
       none)

/-! ### Lemmas about keyed association lists -/

theorem hasKey_eq_isSome (key : α → String) (k : String) :
    ∀ l : List α, hasKey key k l = (getBy key l k).isSome := by
  intro l
  induction l with
  | nil => rfl
  | cons x xs ih => by_cases h : key x = k <;> simp [hasKey, getBy, h, ih]

theorem getBy_append_self (key : α → String) (a : α) :
    ∀ l : List α, hasKey key (key a) l = false →
      getBy key (l ++ [a]) (key a) = some a := by
  intro l
  induction l with
  | nil => intro _; simp [getBy]
  | cons x xs ih =>
    intro h
    by_cases hx : key x = key a
    · simp [hasKey, hx] at h
    · simpa [getBy, hx] using ih (by simpa [hasKey, hx] using h)

theorem getBy_append_other (key : α → String) (a : α) (k : String)
    (h : k ≠ key a) : ∀ l : List α, getBy key (l ++ [a]) k = getBy key l k := by
  intro l
  induction l with
  | nil => simp [getBy, Ne.symm h]
  | cons x xs ih => by_cases hx : key x = k <;> simp [getBy, hx, ih]

theorem getBy_replaceBy_self (key : α → String) (a : α) :
    ∀ l : List α, hasKey key (key a) l = true →
      getBy key (replaceBy key a l) (key a) = some a := by
  intro l
  induction l with
  | nil => intro h; simp [hasKey] at h
  | cons x xs ih =>
    intro h
    by_cases hx : key x = key a
    · simp [replaceBy, getBy, hx]
    · simpa [replaceBy, getBy, hx] using ih (by simpa [hasKey, hx] using h)

theorem getBy_replaceBy_other (key : α → String) (a : α) (k : String)
    (h : k ≠ key a) :
    ∀ l : List α, getBy key (replaceBy key a l) k = getBy key l k := by
  intro l
  induction l with
  | nil => rfl
  | cons x xs ih =>
    by_cases hx : key x = key a
    · simp [replaceBy, getBy, hx, Ne.symm h, ih]
    · simp [replaceBy, getBy, hx, ih]

theorem getBy_setBy_self (key : α → String) (l : List α) (a : α) :
    getBy key (setBy key l a) (key a) = some a := by
  unfold setBy
  by_cases h : hasKey key (key a) l = true
  · simpa [h] using getBy_replaceBy_self key a l h
  · have h2 : hasKey key (key a) l = false := by simpa using h
    simpa [h2] using getBy_append_self key a l h2

theorem getBy_setBy_other (key : α → String) (l : List α) (a : α) (k : String)
    (h : k ≠ key a) : getBy key (setBy key l a) k = getBy key l k := by
  unfold setBy
  by_cases h2 : hasKey key (key a) l = true
  · simpa [h2] using getBy_replaceBy_other key a k h l
  · simpa [h2] using getBy_append_other key a k h l

theorem hasKey_of_mem (key : α → String) (k : String) :
    ∀ l : List α, ∀ x ∈ l, key x = k → hasKey key k l = true := by
  intro l
  induction l with
  | nil => intro x hx; exact absurd hx (List.not_mem_nil x)
  | cons y ys ih =>
    intro x hx hk
    rcases List.mem_cons.mp hx with h1 | h2
    · subst h1; simp [hasKey, hk]
    · by_cases hy : key y = k <;> simp [hasKey, hy, ih x h2 hk]

theorem mem_replaceBy (key : α → String) (a : α) :
    ∀ l : List α, ∀ x ∈ replaceBy key a l,
      x = a ∨ (x ∈ l ∧ key x ≠ key a) := by
  intro l
  induction l with
  | nil => intro x hx; simp [replaceBy] at hx
  | cons y ys ih =>
    intro x hx
    rw [replaceBy] at hx
    rcases List.mem_cons.mp hx with h1 | h2
    · by_cases hy : key y = key a
      · left; simpa [hy] using h1
      · right; rw [if_neg hy] at h1; subst h1
        exact ⟨List.mem_cons_self _ _, hy⟩
    · rcases ih x h2 with h3 | ⟨h3, h4⟩
      · exact Or.inl h3
      · exact Or.inr ⟨List.mem_cons_of_mem _ h3, h4⟩

theorem mem_setBy_self (key : α → String) (l : List α) (a x : α)
    (hx : x ∈ setBy key l a) (hk : key x = key a) : x = a := by
  unfold setBy at hx
  by_cases h : hasKey key (key a) l = true
  · rw [if_pos h] at hx
    rcases mem_replaceBy key a l x hx with h1 | ⟨_, h2⟩
    · exact h1
    · exact absurd hk h2
  · rw [if_neg h] at hx
    rcases List.mem_append.mp hx with h1 | h2
    · exact absurd (hasKey_of_mem key (key a) l x h1 hk) h
    · simpa using h2

theorem mem_setBy_other (key : α → String) (l : List α) (a x : α)
    (hx : x ∈ setBy key l a) (hk : key x ≠ key a) : x ∈ l := by
  unfold setBy at hx
  by_cases h : hasKey key (key a) l = true
  · rw [if_pos h] at hx
    rcases mem_replaceBy key a l x hx with h1 | ⟨h2, _⟩
    · subst h1; exact absurd rfl hk
    · exact h2
  · rw [if_neg h] at hx
    rcases List.mem_append.mp hx with h1 | h2
    · exact h1
    · simp at h2; subst h2; exact absurd rfl hk

theorem replaceBy_eq_self (key : α → String) (a : α) :
    ∀ l : List α, (∀ x ∈ l, key x = key a → x = a) →
      replaceBy key a l = l := by
  intro l
  induction l with
  | nil => intro _; rfl
  | cons y ys ih =>
    intro h
    rw [replaceBy]
    by_cases hy : key y = key a
    · have hya : y = a := h y (List.mem_cons_self y ys) hy
      rw [if_pos hy, ih (fun x hx hk => h x (List.mem_cons_of_mem _ hx) hk), ← hya]
    · rw [if_neg hy, ih (fun x hx hk => h x (List.mem_cons_of_mem _ hx) hk)]

theorem setBy_eq_self (key : α → String) (l : List α) (a : α)
    (h : ∀ x ∈ l, key x = key a → x = a)
    (h2 : hasKey key (key a) l = true) : setBy key l a = l := by
  unfold setBy
  rw [if_pos h2]
  exact replaceBy_eq_self key a l h

theorem hasKey_setBy_self (key : α → String) (l : List α) (a : α) :
    hasKey key (key a) (setBy key l a) = true := by
  rw [hasKey_eq_isSome, getBy_setBy_self]
  rfl

theorem hasKey_setBy_mono (key : α → String) (l : List α) (a : α) (k : String)
    (h : hasKey key k l = true) : hasKey key k (setBy key l a) = true := by
  by_cases hk : k = key a
  · subst hk; exact hasKey_setBy_self key l a
  · rw [hasKey_eq_isSome, getBy_setBy_other key l a k hk, ← hasKey_eq_isSome]
    exact h

theorem setBy_idem (key : α → String) (l : List α) (a : α) :
    setBy key (setBy key l a) a = setBy key l a :=
  setBy_eq_self key _ a (fun x hx hk => mem_setBy_self key l a x hx hk)
    (hasKey_setBy_self key l a)

theorem map_key_replaceBy (key : α → String) (a : α) :
    ∀ l : List α, (replaceBy key a l).map key = l.map key := by
  intro l
  induction l with
  | nil => rfl
  | cons y ys ih => by_cases hy : key y = key a <;> simp [replaceBy, hy, ih]

theorem nodup_map_key_setBy (key : α → String) (l : List α) (a : α)
    (h : (l.map key).Nodup) : ((setBy key l a).map key).Nodup := by
  unfold setBy
  by_cases h2 : hasKey key (key a) l = true
  · rw [if_pos h2, map_key_replaceBy]; exact h
  · rw [if_neg h2, List.map_append, List.nodup_append]
    refine ⟨h, List.nodup_singleton _, ?_⟩
    intro b hb hb2
    simp only [List.map_cons, List.map_nil, List.mem_singleton] at hb2
    subst hb2
    rcases List.mem_map.mp hb with ⟨x, hx, hkx⟩
    exact h2 (hasKey_of_mem key (key a) l x hx hkx)

/-! ### Corollaries for the filesystem and for tag containers -/

theorem fsGet_fsSet_self (fs : FS) (p : String) (f : AudioFile) :
    fsGet (fsSet fs p f) p = some f := by
  show (getBy Prod.fst (setBy Prod.fst fs (p, f)) p).map Prod.snd = some f
  have h : getBy Prod.fst (setBy Prod.fst fs (p, f)) p = some (p, f) :=
    getBy_setBy_self Prod.fst fs (p, f)
  rw [h]
  rfl

theorem fsGet_fsSet_other (fs : FS) (p q : String) (f : AudioFile)
    (h : q ≠ p) : fsGet (fsSet fs p f) q = fsGet fs q := by
  show (getBy Prod.fst (setBy Prod.fst fs (p, f)) q).map Prod.snd = _
  have h2 : getBy Prod.fst (setBy Prod.fst fs (p, f)) q = getBy Prod.fst fs q :=
    getBy_setBy_other Prod.fst fs (p, f) q h
  rw [h2]
  rfl

theorem pathExists_fsSet_self (fs : FS) (p : String) (f : AudioFile) :
    pathExists (fsSet fs p f) p = true := by
  simp [pathExists, fsGet_fsSet_self]

theorem getFrame_add_self (t : Tags) (f : Frame) :
    (t.add f).getFrame f.hashKey = some f :=
  getBy_setBy_self Frame.hashKey t f

theorem getFrame_add_other (t : Tags) (f : Frame) (k : String)
    (h : k ≠ f.hashKey) : (t.add f).getFrame k = t.getFrame k :=
  getBy_setBy_other Frame.hashKey t f k h

theorem mem_add_self (t : Tags) (f x : Frame) (hx : x ∈ t.add f)
    (hk : x.hashKey = f.hashKey) : x = f :=
  mem_setBy_self Frame.hashKey t f x hx hk

theorem mem_add_other (t : Tags) (f x : Frame) (hx : x ∈ t.add f)
    (hk : x.hashKey ≠ f.hashKey) : x ∈ t :=
  mem_setBy_other Frame.hashKey t f x hx hk

theorem hasKey_add_self (t : Tags) (f : Frame) :
    hasKey Frame.hashKey f.hashKey (t.add f) = true :=
  hasKey_setBy_self Frame.hashKey t f

theorem hasKey_add_mono (t : Tags) (f : Frame) (k : String)
    (h : hasKey Frame.hashKey k t = true) :
    hasKey Frame.hashKey k (t.add f) = true :=
  hasKey_setBy_mono Frame.hashKey t f k h

theorem add_eq_self (t : Tags) (f : Frame)
    (h1 : ∀ x ∈ t, x.hashKey = f.hashKey → x = f)
    (h2 : hasKey Frame.hashKey f.hashKey t = true) : t.add f = t :=
  setBy_eq_self Frame.hashKey t f h1 h2

theorem apply_frames_TIT2 (t : Tags) (m : Metadata) (url : String) :
    (apply_frames t m url).getFrame "TIT2" = some (Frame.TIT2 m.title) := by
  unfold apply_frames
  rw [getFrame_add_other _ (Frame.COMM "eng" "url" url) "TIT2" (show ("TIT2" : String) ≠ "COMM:url:eng" by decide),
      getFrame_add_other _ (Frame.COMM "eng" "desc" m.description) "TIT2" (show ("TIT2" : String) ≠ "COMM:desc:eng" by decide),
      getFrame_add_other _ (Frame.TALB "YouTube") "TIT2" (show ("TIT2" : String) ≠ "TALB" by decide),
      getFrame_add_other _ (Frame.TPE1 m.author) "TIT2" (show ("TIT2" : String) ≠ "TPE1" by decide)]
  exact getFrame_add_self t (Frame.TIT2 m.title)

theorem apply_frames_TPE1 (t : Tags) (m : Metadata) (url : String) :
    (apply_frames t m url).getFrame "TPE1" = some (Frame.TPE1 m.author) := by
  unfold apply_frames
  rw [getFrame_add_other _ (Frame.COMM "eng" "url" url) "TPE1" (show ("TPE1" : String) ≠ "COMM:url:eng" by decide),
      getFrame_add_other _ (Frame.COMM "eng" "desc" m.description) "TPE1" (show ("TPE1" : String) ≠ "COMM:desc:eng" by decide),
      getFrame_add_other _ (Frame.TALB "YouTube") "TPE1" (show ("TPE1" : String) ≠ "TALB" by decide)]
  exact getFrame_add_self _ (Frame.TPE1 m.author)

theorem apply_frames_TALB (t : Tags) (m : Metadata) (url : String) :
    (apply_frames t m url).getFrame "TALB" = some (Frame.TALB "YouTube") := by
  unfold apply_frames
  rw [getFrame_add_other _ (Frame.COMM "eng" "url" url) "TALB" (show ("TALB" : String) ≠ "COMM:url:eng" by decide),
      getFrame_add_other _ (Frame.COMM "eng" "desc" m.description) "TALB" (show ("TALB" : String) ≠ "COMM:desc:eng" by decide)]
  exact getFrame_add_self _ (Frame.TALB "YouTube")

theorem apply_frames_COMM_desc (t : Tags) (m : Metadata) (url : String) :
    (apply_frames t m url).getFrame "COMM:desc:eng"
      = some (Frame.COMM "eng" "desc" m.description) := by
  unfold apply_frames
  rw [getFrame_add_other _ (Frame.COMM "eng" "url" url) "COMM:desc:eng" (show ("COMM:desc:eng" : String) ≠ "COMM:url:eng" by decide)]
  exact getFrame_add_self _ (Frame.COMM "eng" "desc" m.description)

theorem apply_frames_COMM_url (t : Tags) (m : Metadata) (url : String) :
    (apply_frames t m url).getFrame "COMM:url:eng"
      = some (Frame.COMM "eng" "url" url) := by
  unfold apply_frames
  exact getFrame_add_self _ (Frame.COMM "eng" "url" url)

theorem apply_frames_preserves_other (t : Tags) (m : Metadata) (url : String)
    (k : String) (h1 : k ≠ "TIT2") (h2 : k ≠ "TPE1") (h3 : k ≠ "TALB")
    (h4 : k ≠ "COMM:desc:eng") (h5 : k ≠ "COMM:url:eng") :
    (apply_frames t m url).getFrame k = t.getFrame k := by
  unfold apply_frames
  rw [getFrame_add_other _ (Frame.COMM "eng" "url" url) k h5,
      getFrame_add_other _ (Frame.COMM "eng" "desc" m.description) k h4,
      getFrame_add_other _ (Frame.TALB "YouTube") k h3,
      getFrame_add_other _ (Frame.TPE1 m.author) k h2,
      getFrame_add_other _ (Frame.TIT2 m.title) k h1]

theorem mem_apply_frames (t : Tags) (m : Metadata) (url : String) :
    ∀ x ∈ apply_frames t m url,
      (x.hashKey = "TIT2" → x = Frame.TIT2 m.title) ∧
      (x.hashKey = "TPE1" → x = Frame.TPE1 m.author) ∧
      (x.hashKey = "TALB" → x = Frame.TALB "YouTube") ∧
      (x.hashKey = "COMM:desc:eng" → x = Frame.COMM "eng" "desc" m.description) ∧
      (x.hashKey = "COMM:url:eng" → x = Frame.COMM "eng" "url" url) := by
  intro x hx
  unfold apply_frames at hx
  refine ⟨?_, ?_, ?_, ?_, ?_⟩
  · intro hk
    have hx4 := mem_add_other _ _ _ hx
      (by rw [hk]; show ("TIT2" : String) ≠ "COMM:url:eng"; decide)
    have hx3 := mem_add_other _ _ _ hx4
      (by rw [hk]; show ("TIT2" : String) ≠ "COMM:desc:eng"; decide)
    have hx2 := mem_add_other _ _ _ hx3
      (by rw [hk]; show ("TIT2" : String) ≠ "TALB"; decide)
    have hx1 := mem_add_other _ _ _ hx2
      (by rw [hk]; show ("TIT2" : String) ≠ "TPE1"; decide)
    exact mem_add_self _ _ _ hx1 hk
  · intro hk
    have hx4 := mem_add_other _ _ _ hx
      (by rw [hk]; show ("TPE1" : String) ≠ "COMM:url:eng"; decide)
    have hx3 := mem_add_other _ _ _ hx4
      (by rw [hk]; show ("TPE1" : String) ≠ "COMM:desc:eng"; decide)
    have hx2 := mem_add_other _ _ _ hx3
      (by rw [hk]; show ("TPE1" : String) ≠ "TALB"; decide)
    exact mem_add_self _ _ _ hx2 hk
  · intro hk
    have hx4 := mem_add_other _ _ _ hx
      (by rw [hk]; show ("TALB" : String) ≠ "COMM:url:eng"; decide)
    have hx3 := mem_add_other _ _ _ hx4
      (by rw [hk]; show ("TALB" : String) ≠ "COMM:desc:eng"; decide)
    exact mem_add_self _ _ _ hx3 hk
  · intro hk
    have hx4 := mem_add_other _ _ _ hx
      (by rw [hk]; show ("COMM:desc:eng" : String) ≠ "COMM:url:eng"; decide)
    exact mem_add_self _ _ _ hx4 hk
  · intro hk
    exact mem_add_self _ _ _ hx hk

theorem hasKey_of_getFrame (t : Tags) (k : String) (f : Frame)
    (h : t.getFrame k = some f) : hasKey Frame.hashKey k t = true := by
  rw [hasKey_eq_isSome]
  unfold Tags.getFrame at h
  rw [h]
  rfl

theorem apply_frames_idem (t : Tags) (m : Metadata) (url : String) :
    apply_frames (apply_frames t m url) m url = apply_frames t m url := by
  have hmem := mem_apply_frames t m url
  have k1 := hasKey_of_getFrame _ _ _ (apply_frames_TIT2 t m url)
  have k2 := hasKey_of_getFrame _ _ _ (apply_frames_TPE1 t m url)
  have k3 := hasKey_of_getFrame _ _ _ (apply_frames_TALB t m url)
  have k4 := hasKey_of_getFrame _ _ _ (apply_frames_COMM_desc t m url)
  have k5 := hasKey_of_getFrame _ _ _ (apply_frames_COMM_url t m url)
  have s1 : (apply_frames t m url).add (Frame.TIT2 m.title) = apply_frames t m url :=
    add_eq_self _ _ (fun x hx hk => (hmem x hx).1 hk) k1
  have s2 : (apply_frames t m url).add (Frame.TPE1 m.author) = apply_frames t m url :=
    add_eq_self _ _ (fun x hx hk => (hmem x hx).2.1 hk) k2
  have s3 : (apply_frames t m url).add (Frame.TALB "YouTube") = apply_frames t m url :=
    add_eq_self _ _ (fun x hx hk => (hmem x hx).2.2.1 hk) k3
  have s4 : (apply_frames t m url).add (Frame.COMM "eng" "desc" m.description)
      = apply_frames t m url :=
    add_eq_self _ _ (fun x hx hk => (hmem x hx).2.2.2.1 hk) k4
  have s5 : (apply_frames t m url).add (Frame.COMM "eng" "url" url)
      = apply_frames t m url :=
    add_eq_self _ _ (fun x hx hk => (hmem x hx).2.2.2.2 hk) k5
  show (((((apply_frames t m url).add (Frame.TIT2 m.title)).add
      (Frame.TPE1 m.author)).add (Frame.TALB "YouTube")).add
      (Frame.COMM "eng" "desc" m.description)).add
      (Frame.COMM "eng" "url" url) = apply_frames t m url
  rw [s1, s2, s3, s4, s5]

theorem nodup_keys_apply_frames (t : Tags) (m : Metadata) (url : String)
    (h : (t.map Frame.hashKey).Nodup) :
    ((apply_frames t m url).map Frame.hashKey).Nodup :=
  nodup_map_key_setBy _ _ _ (nodup_map_key_setBy _ _ _ (nodup_map_key_setBy _ _ _
    (nodup_map_key_setBy _ _ _ (nodup_map_key_setBy _ _ _ h))))
/-! ### Scenario lemmas for the Tagger -/

theorem add_metadata_body_absent (fs : FS) (p : String) (m : Metadata)
    (u : String) (hget : fsGet fs p = none) :
    add_metadata_body fs p m u = (fs, [], Except.error (PyErr.fileNotFound p)) := by
  unfold add_metadata_body
  rw [hget]

theorem add_metadata_body_unparsable (fs : FS) (p : String) (m : Metadata)
    (u : String) (f : AudioFile) (hget : fsGet fs p = some f)
    (hp : f.parsable = false) :
    add_metadata_body fs p m u = (fs, [], Except.error (PyErr.mp3Error p)) := by
  unfold add_metadata_body
  rw [hget]
  simp [hp]

theorem add_metadata_body_success (fs : FS) (p : String) (m : Metadata)
    (u : String) (f : AudioFile) (hget : fsGet fs p = some f)
    (hp : f.parsable = true) :
    add_metadata_body fs p m u =
      (fsSet fs p ⟨true, some (apply_frames (f.tags.getD []) m u)⟩,
       ["Metadata added successfully to MP3."], Except.ok ()) := by
  unfold add_metadata_body
  rw [hget]
  simp [hp]

theorem add_metadata_eq_of_body_ok (fs : FS) (p : String) (m : Metadata)
    (u : String) (fs1 : FS) (out : List String)
    (hb : add_metadata_body fs p m u = (fs1, out, Except.ok ())) :
    add_metadata_to_mp3 fs p m u = (fs1, out) := by
  unfold add_metadata_to_mp3
  rw [hb]

theorem add_metadata_eq_of_body_error (fs : FS) (p : String) (m : Metadata)
    (u : String) (fs1 : FS) (out : List String) (e : PyErr)
    (hb : add_metadata_body fs p m u = (fs1, out, Except.error e)) :
    add_metadata_to_mp3 fs p m u =
      (fs1, out ++ ["An error occurred while adding metadata to MP3: "
                      ++ e.message]) := by
  unfold add_metadata_to_mp3
  rw [hb]

theorem add_metadata_fs_idem (fs : FS) (p : String) (m : Metadata) (u : String) :
    (add_metadata_to_mp3 (add_metadata_to_mp3 fs p m u).1 p m u).1
      = (add_metadata_to_mp3 fs p m u).1 := by
  cases hget : fsGet fs p with
  | none =>
    rw [add_metadata_eq_of_body_error fs p m u fs [] _
          (add_metadata_body_absent fs p m u hget)]
    rw [add_metadata_eq_of_body_error fs p m u fs [] _
          (add_metadata_body_absent fs p m u hget)]
  | some f =>
    by_cases hp : f.parsable = true
    · rw [add_metadata_eq_of_body_ok fs p m u _ _
            (add_metadata_body_success fs p m u f hget hp)]
      have hget2 : fsGet (fsSet fs p ⟨true, some (apply_frames (f.tags.getD []) m u)⟩) p
          = some ⟨true, some (apply_frames (f.tags.getD []) m u)⟩ :=
        fsGet_fsSet_self fs p _
      have hb2 := add_metadata_body_success
        (fsSet fs p ⟨true, some (apply_frames (f.tags.getD []) m u)⟩) p m u
        ⟨true, some (apply_frames (f.tags.getD []) m u)⟩ hget2 rfl
      rw [add_metadata_eq_of_body_ok _ p m u _ _ hb2]
      show fsSet (fsSet fs p _) p _ = fsSet fs p _
      rw [show (AudioFile.mk true (some (apply_frames ((Option.some (apply_frames (f.tags.getD []) m u)).getD []) m u)))
            = AudioFile.mk true (some (apply_frames (f.tags.getD []) m u)) from by
        rw [Option.getD_some, apply_frames_idem]]
      exact setBy_idem Prod.fst fs (p, ⟨true, some (apply_frames (f.tags.getD []) m u)⟩)
    · have hp2 : f.parsable = false := by simpa using hp
      rw [add_metadata_eq_of_body_error fs p m u fs [] _
            (add_metadata_body_unparsable fs p m u f hget hp2)]
      rw [add_metadata_eq_of_body_error fs p m u fs [] _
            (add_metadata_body_unparsable fs p m u f hget hp2)]
/-! ### Scenario lemmas for the Fetcher -/

theorem download_eq_of_body_ok (url o rid : String) (env : ExtractResult)
    (fs fs1 : FS) (out : List String) (r : DLResult)
    (hb : download_body url o rid env fs = (fs1, out, Except.ok r)) :
    download_youtube_audio url o rid env fs = (fs1, out, some r) := by
  unfold download_youtube_audio
  rw [hb]

theorem download_eq_of_body_error (url o rid : String) (env : ExtractResult)
    (fs fs1 : FS) (out : List String) (e : PyErr)
    (hb : download_body url o rid env fs = (fs1, out, Except.error e)) :
    download_youtube_audio url o rid env fs =
      (fs1, out ++ ["An error occurred while downloading YouTube audio: "
                      ++ e.message], none) := by
  unfold download_youtube_audio
  rw [hb]

theorem download_body_raises (url o rid : String) (e : PyErr) (fs : FS) :
    download_body url o rid (ExtractResult.raises e) fs
      = (fs, [], Except.error e) := rfl

theorem download_body_missing_file (url o rid : String) (info : InfoDict)
    (fs : FS) (hex : pathExists fs (audio_path_of o rid) = false) :
    download_body url o rid (ExtractResult.returns info none) fs =
      (fs, [], Except.error (PyErr.fileNotFound
        ("Could not find the downloaded MP3 file: " ++ audio_path_of o rid))) := by
  unfold download_body
  simp [hex]

theorem download_body_no_title (url o rid : String) (info : InfoDict)
    (f : AudioFile) (fs : FS) (ht : dictLookup info "title" = none) :
    download_body url o rid (ExtractResult.returns info (some f)) fs =
      (fsSet fs (audio_path_of o rid) f, [],
       Except.error (PyErr.keyError "title")) := by
  unfold download_body
  simp [pathExists_fsSet_self, ht]

theorem download_body_no_uploader (url o rid : String) (info : InfoDict)
    (f : AudioFile) (fs : FS) (title : String)
    (ht : dictLookup info "title" = some title)
    (hu : dictLookup info "uploader" = none) :
    download_body url o rid (ExtractResult.returns info (some f)) fs =
      (fsSet fs (audio_path_of o rid) f, [],
       Except.error (PyErr.keyError "uploader")) := by
  unfold download_body
  simp [pathExists_fsSet_self, ht, hu]

theorem download_body_success (url o rid : String) (info : InfoDict)
    (f : AudioFile) (fs : FS) (title uploader : String)
    (ht : dictLookup info "title" = some title)
    (hu : dictLookup info "uploader" = some uploader) :
    download_body url o rid (ExtractResult.returns info (some f)) fs =
      ((add_metadata_to_mp3 (fsSet fs (audio_path_of o rid) f)
          (audio_path_of o rid)
          ⟨title, uploader, (dictLookup info "description").getD ""⟩ url).1,
       (add_metadata_to_mp3 (fsSet fs (audio_path_of o rid) f)
          (audio_path_of o rid)
          ⟨title, uploader, (dictLookup info "description").getD ""⟩ url).2 ++
         ["Downloaded and extracted audio successfully: " ++ title,
          "File saved as: " ++ audio_path_of o rid],
       Except.ok ⟨audio_path_of o rid, title, uploader, url⟩) := by
  unfold download_body
  simp [pathExists_fsSet_self, ht, hu]
theorem download_body_preexisting_no_title (url o rid : String)
    (info : InfoDict) (fs : FS)
    (hex : pathExists fs (audio_path_of o rid) = true)
    (ht : dictLookup info "title" = none) :
    download_body url o rid (ExtractResult.returns info none) fs =
      (fs, [], Except.error (PyErr.keyError "title")) := by
  unfold download_body
  simp [hex, ht]

theorem download_body_preexisting_no_uploader (url o rid : String)
    (info : InfoDict) (fs : FS) (title : String)
    (hex : pathExists fs (audio_path_of o rid) = true)
    (ht : dictLookup info "title" = some title)
    (hu : dictLookup info "uploader" = none) :
    download_body url o rid (ExtractResult.returns info none) fs =
      (fs, [], Except.error (PyErr.keyError "uploader")) := by
  unfold download_body
  simp [hex, ht, hu]

theorem download_body_preexisting_success (url o rid : String)
    (info : InfoDict) (fs : FS) (title uploader : String)
    (hex : pathExists fs (audio_path_of o rid) = true)
    (ht : dictLookup info "title" = some title)
    (hu : dictLookup info "uploader" = some uploader) :
    download_body url o rid (ExtractResult.returns info none) fs =
      ((add_metadata_to_mp3 fs (audio_path_of o rid)
          ⟨title, uploader, (dictLookup info "description").getD ""⟩ url).1,
       (add_metadata_to_mp3 fs (audio_path_of o rid)
          ⟨title, uploader, (dictLookup info "description").getD ""⟩ url).2 ++
         ["Downloaded and extracted audio successfully: " ++ title,
          "File saved as: " ++ audio_path_of o rid],
       Except.ok ⟨audio_path_of o rid, title, uploader, url⟩) := by
  unfold download_body
  simp [hex, ht, hu]

/-! ### Frame lemmas: each function only writes its own output path -/

theorem add_metadata_fsGet_other (fs : FS) (p : String) (m : Metadata)
    (u : String) (q : String) (h : q ≠ p) :
    fsGet (add_metadata_to_mp3 fs p m u).1 q = fsGet fs q := by
  cases hget : fsGet fs p with
  | none =>
    rw [add_metadata_eq_of_body_error fs p m u fs [] _
          (add_metadata_body_absent fs p m u hget)]
  | some f =>
    by_cases hp : f.parsable = true
    · rw [add_metadata_eq_of_body_ok fs p m u _ _
            (add_metadata_body_success fs p m u f hget hp)]
      exact fsGet_fsSet_other fs p q _ h
    · have hp2 : f.parsable = false := by simpa using hp
      rw [add_metadata_eq_of_body_error fs p m u fs [] _
            (add_metadata_body_unparsable fs p m u f hget hp2)]

theorem download_fs_eq_body (url o rid : String) (env : ExtractResult)
    (fs : FS) :
    (download_youtube_audio url o rid env fs).1
      = (download_body url o rid env fs).1 := by
  unfold download_youtube_audio
  rcases hb : download_body url o rid env fs with ⟨fs1, out, r⟩
  cases r <;> rfl

theorem download_body_fsGet_other (url o rid : String) (env : ExtractResult)
    (fs : FS) (q : String) (h : q ≠ audio_path_of o rid) :
    fsGet (download_body url o rid env fs).1 q = fsGet fs q := by
  cases env with
  | raises e => rfl
  | returns info produced =>
    cases produced with
    | none =>
      by_cases hex : pathExists fs (audio_path_of o rid) = true
      · cases ht : dictLookup info "title" with
        | none =>
          rw [download_body_preexisting_no_title url o rid info fs hex ht]
        | some title =>
          cases hu : dictLookup info "uploader" with
          | none =>
            rw [download_body_preexisting_no_uploader url o rid info fs
                  title hex ht hu]
          | some uploader =>
            rw [download_body_preexisting_success url o rid info fs
                  title uploader hex ht hu]
            exact add_metadata_fsGet_other fs _ _ url q h
      · have hex2 : pathExists fs (audio_path_of o rid) = false := by
          simpa using hex
        rw [download_body_missing_file url o rid info fs hex2]
    | some f =>
      have hstep : fsGet (fsSet fs (audio_path_of o rid) f) q = fsGet fs q :=
        fsGet_fsSet_other fs _ q f h
      cases ht : dictLookup info "title" with
      | none =>
        rw [download_body_no_title url o rid info f fs ht]
        exact hstep
      | some title =>
        cases hu : dictLookup info "uploader" with
        | none =>
          rw [download_body_no_uploader url o rid info f fs title ht hu]
          exact hstep
        | some uploader =>
          rw [download_body_success url o rid info f fs title uploader ht hu]
          rw [add_metadata_fsGet_other _ _ _ url q h]
          exact hstep

theorem download_fsGet_other (url o rid : String) (env : ExtractResult)
    (fs : FS) (q : String) (h : q ≠ audio_path_of o rid) :
    fsGet (download_youtube_audio url o rid env fs).1 q = fsGet fs q := by
  rw [download_fs_eq_body]
  exact download_body_fsGet_other url o rid env fs q h
theorem audio_path_of_inj (o rid1 rid2 : String) (h : rid1 ≠ rid2) :
    audio_path_of o rid1 ≠ audio_path_of o rid2 := by
  intro heq
  apply h
  unfold audio_path_of pathJoin at heq
  have hdata := congrArg String.data heq
  simp only [String.data_append] at hdata
  have h1 := List.append_cancel_left hdata
  have h2 := List.append_cancel_right h1
  exact String.ext h2
theorem length_replaceBy (key : α → String) (a : α) :
    ∀ l : List α, (replaceBy key a l).length = l.length := by
  intro l
  induction l with
  | nil => rfl
  | cons y ys ih => simp [replaceBy, ih]

theorem length_setBy_hasKey (key : α → String) (l : List α) (a : α)
    (h : hasKey key (key a) l = true) : (setBy key l a).length = l.length := by
  unfold setBy
  rw [if_pos h, length_replaceBy]

theorem hasKey_of_fsGet (fs : FS) (p : String) (f : AudioFile)
    (h : fsGet fs p = some f) : hasKey Prod.fst p fs = true := by
  rw [hasKey_eq_isSome]
  unfold fsGet at h
  cases hg : getBy Prod.fst fs p with
  | none => rw [hg] at h; simp at h
  | some x => rfl

theorem add_metadata_fs_length (fs : FS) (p : String) (m : Metadata)
    (u : String) : (add_metadata_to_mp3 fs p m u).1.length = fs.length := by
  cases hget : fsGet fs p with
  | none =>
    rw [add_metadata_eq_of_body_error fs p m u fs [] _
          (add_metadata_body_absent fs p m u hget)]
  | some f =>
    by_cases hp : f.parsable = true
    · rw [add_metadata_eq_of_body_ok fs p m u _ _
            (add_metadata_body_success fs p m u f hget hp)]
      exact length_setBy_hasKey Prod.fst fs _ (hasKey_of_fsGet fs p f hget)
    · have hp2 : f.parsable = false := by simpa using hp
      rw [add_metadata_eq_of_body_error fs p m u fs [] _
            (add_metadata_body_unparsable fs p m u f hget hp2)]
/-! ### Claim theorems -/

/-- C1: neither the Fetcher nor the Tagger lets an exception escape to its
caller: whenever the `try`-body of `download_youtube_audio` raises, the
boundary catches it, prints the diagnostic line and returns `none`; and
whenever the `try`-body of `add_metadata_to_mp3` raises, the boundary
catches it and prints the diagnostic line, returning nothing more. -/
theorem C1_no_exception_escapes (url output_path random_filename : String)
    (env : ExtractResult) (fs fsT : FS) (p : String) (m : Metadata)
    (uT : String) :
    (∀ fs1 out e,
      download_body url output_path random_filename env fs
          = (fs1, out, Except.error e) →
      download_youtube_audio url output_path random_filename env fs
          = (fs1, out ++ ["An error occurred while downloading YouTube audio: "
                            ++ e.message], none)) ∧
    (∀ fs1 out e,
      add_metadata_body fsT p m uT = (fs1, out, Except.error e) →
      add_metadata_to_mp3 fsT p m uT
          = (fs1, out ++ ["An error occurred while adding metadata to MP3: "
                            ++ e.message])) :=
  ⟨fun fs1 out e hb =>
     download_eq_of_body_error url output_path random_filename env fs fs1 out e hb,
   fun fs1 out e hb =>
     add_metadata_eq_of_body_error fsT p m uT fs1 out e hb⟩

theorem C1_no_exception_escapes_witness :
    download_youtube_audio "u" "." "id"
        (ExtractResult.raises (PyErr.extractionError "boom")) []
      = ([], ["An error occurred while downloading YouTube audio: boom"],
         none) ∧
    add_metadata_to_mp3 [] "a.mp3" ⟨"t", "a", "d"⟩ "u"
      = ([], ["An error occurred while adding metadata to MP3: a.mp3"]) :=
  ⟨(C1_no_exception_escapes "u" "." "id"
        (ExtractResult.raises (PyErr.extractionError "boom")) [] [] "a.mp3"
        ⟨"t", "a", "d"⟩ "u").1 [] [] (PyErr.extractionError "boom") rfl,
   (C1_no_exception_escapes "u" "." "id"
        (ExtractResult.raises (PyErr.extractionError "boom")) [] [] "a.mp3"
        ⟨"t", "a", "d"⟩ "u").2 [] [] (PyErr.fileNotFound "a.mp3") rfl⟩

/-- C2: for every run in which the expected output file
`{output_directory}/{random_id}.mp3` is absent after the transcode step,
the body raises a `FileNotFoundError` carrying the expected path, the
boundary catches it, prints the diagnostic and the function returns
`none`: no exception escapes. -/
theorem C2_missing_output_file (url output_path random_filename : String)
    (info : InfoDict) (fs : FS)
    (hex : pathExists fs (audio_path_of output_path random_filename)
             = false) :
    download_body url output_path random_filename
        (ExtractResult.returns info none) fs
      = (fs, [], Except.error (PyErr.fileNotFound
          ("Could not find the downloaded MP3 file: "
            ++ audio_path_of output_path random_filename))) ∧
    download_youtube_audio url output_path random_filename
        (ExtractResult.returns info none) fs
      = (fs, ["An error occurred while downloading YouTube audio: "
                ++ ("Could not find the downloaded MP3 file: "
                      ++ audio_path_of output_path random_filename)],
         none) := by
  have hb := download_body_missing_file url output_path random_filename
    info fs hex
  refine ⟨hb, ?_⟩
  have h2 := download_eq_of_body_error url output_path random_filename
    (ExtractResult.returns info none) fs fs [] _ hb
  simpa using h2

theorem C2_missing_output_file_witness :
    pathExists [] (audio_path_of "." "id") = false ∧
    download_youtube_audio "u" "." "id" (ExtractResult.returns [] none) []
      = ([], ["An error occurred while downloading YouTube audio: "
                ++ ("Could not find the downloaded MP3 file: "
                      ++ audio_path_of "." "id")], none) :=
  ⟨by decide, (C2_missing_output_file "u" "." "id" [] [] (by decide)).2⟩

/-- C4: `add_metadata_to_mp3` is idempotent: a second call with the same
metadata and URL leaves the same filesystem (hence the same tag contents);
each of the five frames is replaced rather than appended, so a container
with no duplicate hash keys keeps no duplicate frames (in particular no
duplicate COMM frames beyond descriptors `desc` and `url`). -/
theorem C4_idempotent (fs : FS) (p : String) (m : Metadata) (u : String) :
    (add_metadata_to_mp3 (add_metadata_to_mp3 fs p m u).1 p m u).1
      = (add_metadata_to_mp3 fs p m u).1 ∧
    (∀ t : Tags, apply_frames (apply_frames t m u) m u = apply_frames t m u) ∧
    (∀ t : Tags, (t.map Frame.hashKey).Nodup →
       ((apply_frames t m u).map Frame.hashKey).Nodup) :=
  ⟨add_metadata_fs_idem fs p m u,
   fun t => apply_frames_idem t m u,
   fun t h => nodup_keys_apply_frames t m u h⟩

theorem C4_idempotent_witness :
    (add_metadata_to_mp3
        (add_metadata_to_mp3 [("a.mp3", ⟨true, none⟩)] "a.mp3"
          ⟨"t", "a", "d"⟩ "u").1 "a.mp3" ⟨"t", "a", "d"⟩ "u").1
      = (add_metadata_to_mp3 [("a.mp3", ⟨true, none⟩)] "a.mp3"
          ⟨"t", "a", "d"⟩ "u").1 ∧
    apply_frames (apply_frames [] ⟨"t", "a", "d"⟩ "u") ⟨"t", "a", "d"⟩ "u"
      = apply_frames [] ⟨"t", "a", "d"⟩ "u" ∧
    (([] : Tags).map Frame.hashKey).Nodup ∧
    ((apply_frames [] ⟨"t", "a", "d"⟩ "u").map Frame.hashKey).Nodup :=
  ⟨(C4_idempotent [("a.mp3", ⟨true, none⟩)] "a.mp3" ⟨"t", "a", "d"⟩ "u").1,
   (C4_idempotent [("a.mp3", ⟨true, none⟩)] "a.mp3" ⟨"t", "a", "d"⟩ "u").2.1 [],
   by decide,
   (C4_idempotent [("a.mp3", ⟨true, none⟩)] "a.mp3" ⟨"t", "a", "d"⟩ "u").2.2 []
     (by decide)⟩

/-- C5: a successful Tagger call sets exactly five tag fields — `TIT2` to
the title, `TPE1` to the author, `TALB` to the constant "YouTube", a COMM
frame (eng, desc) holding the description and a COMM frame (eng, url)
holding the source URL — persists the container to the file in place, and
touches no other hash key. -/
theorem C5_five_fields (fs : FS) (p : String) (m : Metadata) (u : String)
    (f : AudioFile) (hget : fsGet fs p = some f) (hp : f.parsable = true) :
    add_metadata_to_mp3 fs p m u
      = (fsSet fs p ⟨true, some (apply_frames (f.tags.getD []) m u)⟩,
         ["Metadata added successfully to MP3."]) ∧
    fsGet (add_metadata_to_mp3 fs p m u).1 p
      = some ⟨true, some (apply_frames (f.tags.getD []) m u)⟩ ∧
    (apply_frames (f.tags.getD []) m u).getFrame "TIT2"
      = some (Frame.TIT2 m.title) ∧
    (apply_frames (f.tags.getD []) m u).getFrame "TPE1"
      = some (Frame.TPE1 m.author) ∧
    (apply_frames (f.tags.getD []) m u).getFrame "TALB"
      = some (Frame.TALB "YouTube") ∧
    (apply_frames (f.tags.getD []) m u).getFrame "COMM:desc:eng"
      = some (Frame.COMM "eng" "desc" m.description) ∧
    (apply_frames (f.tags.getD []) m u).getFrame "COMM:url:eng"
      = some (Frame.COMM "eng" "url" u) ∧
    (∀ k, k ≠ "TIT2" → k ≠ "TPE1" → k ≠ "TALB" → k ≠ "COMM:desc:eng" →
       k ≠ "COMM:url:eng" →
       (apply_frames (f.tags.getD []) m u).getFrame k
         = (f.tags.getD []).getFrame k) := by
  have heq := add_metadata_eq_of_body_ok fs p m u _ _
    (add_metadata_body_success fs p m u f hget hp)
  refine ⟨heq, ?_, apply_frames_TIT2 _ m u, apply_frames_TPE1 _ m u,
    apply_frames_TALB _ m u, apply_frames_COMM_desc _ m u,
    apply_frames_COMM_url _ m u,
    fun k h1 h2 h3 h4 h5 =>
      apply_frames_preserves_other _ m u k h1 h2 h3 h4 h5⟩
  rw [heq]
  exact fsGet_fsSet_self fs p _

theorem C5_five_fields_witness :
    fsGet [("a.mp3", (⟨true, none⟩ : AudioFile))] "a.mp3"
        = some ⟨true, none⟩ ∧
    add_metadata_to_mp3 [("a.mp3", ⟨true, none⟩)] "a.mp3" ⟨"t", "a", "d"⟩ "u"
      = (fsSet [("a.mp3", ⟨true, none⟩)] "a.mp3"
           ⟨true, some (apply_frames [] ⟨"t", "a", "d"⟩ "u")⟩,
         ["Metadata added successfully to MP3."]) ∧
    (apply_frames [] ⟨"t", "a", "d"⟩ "u").getFrame "TALB"
      = some (Frame.TALB "YouTube") ∧
    (apply_frames [] ⟨"t", "a", "d"⟩ "u").getFrame "XKEY"
      = Tags.getFrame [] "XKEY" :=
  ⟨by decide,
   (C5_five_fields [("a.mp3", ⟨true, none⟩)] "a.mp3" ⟨"t", "a", "d"⟩ "u"
      ⟨true, none⟩ (by decide) rfl).1,
   (C5_five_fields [("a.mp3", ⟨true, none⟩)] "a.mp3" ⟨"t", "a", "d"⟩ "u"
      ⟨true, none⟩ (by decide) rfl).2.2.2.2.1,
   (C5_five_fields [("a.mp3", ⟨true, none⟩)] "a.mp3" ⟨"t", "a", "d"⟩ "u"
      ⟨true, none⟩ (by decide) rfl).2.2.2.2.2.2.2 "XKEY" (by decide)
      (by decide) (by decide) (by decide) (by decide)⟩
/-- C6: every successful run returns the mapping with exactly the fields
`audio_path`, `title`, `author`, `url`, where `title`/`author` come from
the `title`/`uploader` entries of the info record, `url` is the input URL and
`audio_path` is the expected output path; every other run returns `none`
(by the type of `download_youtube_audio`, `some r` and `none` are the
only possible results). -/
theorem C6_success_mapping (url output_path random_filename : String)
    (env : ExtractResult) (fs : FS) (r : DLResult)
    (h : (download_youtube_audio url output_path random_filename env fs).2.2
          = some r) :
    ∃ info produced, env = ExtractResult.returns info produced ∧
      dictLookup info "title" = some r.title ∧
      dictLookup info "uploader" = some r.author ∧
      r.url = url ∧
      r.audio_path = audio_path_of output_path random_filename := by
  cases env with
  | raises e =>
    rw [download_eq_of_body_error url output_path random_filename
          (ExtractResult.raises e) fs fs [] e
          (download_body_raises url output_path random_filename e fs)] at h
    simp at h
  | returns info produced =>
    refine ⟨info, produced, rfl, ?_⟩
    cases produced with
    | some f =>
      cases ht : dictLookup info "title" with
      | none =>
        rw [download_eq_of_body_error url output_path random_filename _ fs _
              [] _ (download_body_no_title url output_path random_filename
                info f fs ht)] at h
        simp at h
      | some title =>
        cases hu : dictLookup info "uploader" with
        | none =>
          rw [download_eq_of_body_error url output_path random_filename _ fs
                _ [] _ (download_body_no_uploader url output_path
                  random_filename info f fs title ht hu)] at h
          simp at h
        | some uploader =>
          rw [download_eq_of_body_ok url output_path random_filename _ fs _ _
                _ (download_body_success url output_path random_filename info
                  f fs title uploader ht hu)] at h
          have h2 : (⟨audio_path_of output_path random_filename, title,
              uploader, url⟩ : DLResult) = r := Option.some.inj h
          subst h2
          exact ⟨rfl, rfl, rfl, rfl⟩
    | none =>
      by_cases hex : pathExists fs
          (audio_path_of output_path random_filename) = true
      · cases ht : dictLookup info "title" with
        | none =>
          rw [download_eq_of_body_error url output_path random_filename _ fs
                fs [] _ (download_body_preexisting_no_title url output_path
                  random_filename info fs hex ht)] at h
          simp at h
        | some title =>
          cases hu : dictLookup info "uploader" with
          | none =>
            rw [download_eq_of_body_error url output_path random_filename _
                  fs fs [] _ (download_body_preexisting_no_uploader url
                    output_path random_filename info fs title hex ht hu)] at h
            simp at h
          | some uploader =>
            rw [download_eq_of_body_ok url output_path random_filename _ fs _
                  _ _ (download_body_preexisting_success url output_path
                    random_filename info fs title uploader hex ht hu)] at h
            have h2 : (⟨audio_path_of output_path random_filename, title,
                uploader, url⟩ : DLResult) = r := Option.some.inj h
            subst h2
            exact ⟨rfl, rfl, rfl, rfl⟩
      · have hex2 : pathExists fs
            (audio_path_of output_path random_filename) = false := by
          simpa using hex
        rw [download_eq_of_body_error url output_path random_filename _ fs fs
              [] _ (download_body_missing_file url output_path
                random_filename info fs hex2)] at h
        simp at h

theorem C6_success_mapping_witness :
    ∃ info produced,
      ExtractResult.returns [("title", "t"), ("uploader", "up")]
          (some (⟨true, none⟩ : AudioFile))
        = ExtractResult.returns info produced ∧
      dictLookup info "title"
        = some (DLResult.title ⟨audio_path_of "." "id", "t", "up", "u"⟩) ∧
      dictLookup info "uploader"
        = some (DLResult.author ⟨audio_path_of "." "id", "t", "up", "u"⟩) ∧
      DLResult.url ⟨audio_path_of "." "id", "t", "up", "u"⟩ = "u" ∧
      DLResult.audio_path ⟨audio_path_of "." "id", "t", "up", "u"⟩
        = audio_path_of "." "id" :=
  C6_success_mapping "u" "." "id"
    (ExtractResult.returns [("title", "t"), ("uploader", "up")]
      (some ⟨true, none⟩)) [] ⟨audio_path_of "." "id", "t", "up", "u"⟩
    (by decide)

/-- C7: when the info record has no `description` entry, the description
defaults to "" and the Tagger still writes the COMM frame with descriptor
`desc`, holding the empty string rather than omitting the frame. -/
theorem C7_empty_description (url output_path random_filename : String)
    (info : InfoDict) (f : AudioFile) (fs : FS) (title uploader : String)
    (ht : dictLookup info "title" = some title)
    (hu : dictLookup info "uploader" = some uploader)
    (hd : dictLookup info "description" = none)
    (hp : f.parsable = true) :
    fsGet (download_youtube_audio url output_path random_filename
        (ExtractResult.returns info (some f)) fs).1
        (audio_path_of output_path random_filename)
      = some ⟨true, some (apply_frames (f.tags.getD [])
                ⟨title, uploader, ""⟩ url)⟩ ∧
    (apply_frames (f.tags.getD []) ⟨title, uploader, ""⟩ url).getFrame
        "COMM:desc:eng"
      = some (Frame.COMM "eng" "desc" "") := by
  have hb := download_body_success url output_path random_filename info f fs
    title uploader ht hu
  rw [hd] at hb
  refine ⟨?_, apply_frames_COMM_desc _ ⟨title, uploader, ""⟩ url⟩
  rw [download_fs_eq_body, hb]
  have hget : fsGet (fsSet fs (audio_path_of output_path random_filename) f)
      (audio_path_of output_path random_filename) = some f :=
    fsGet_fsSet_self fs _ f
  rw [add_metadata_eq_of_body_ok _ _ _ _ _ _
        (add_metadata_body_success _ _ _ _ f hget hp)]
  exact fsGet_fsSet_self _ _ _

theorem C7_empty_description_witness :
    dictLookup [("title", "t"), ("uploader", "up")] "description" = none ∧
    (apply_frames [] ⟨"t", "up", ""⟩ "u").getFrame "COMM:desc:eng"
      = some (Frame.COMM "eng" "desc" "") :=
  ⟨by decide,
   (C7_empty_description "u" "." "id" [("title", "t"), ("uploader", "up")]
      ⟨true, none⟩ [] "t" "up" (by decide) (by decide) (by decide) rfl).2⟩

/-- C9: when the info record lacks the `title` or the `uploader` key, the
`KeyError` is swallowed by the catch-all boundary and the Fetcher returns
`none`, yet the downloaded file remains on disk at the expected path. -/
theorem C9_missing_key_leaves_file (url output_path random_filename : String)
    (info : InfoDict) (f : AudioFile) (fs : FS)
    (h : dictLookup info "title" = none ∨
         dictLookup info "uploader" = none) :
    (download_youtube_audio url output_path random_filename
        (ExtractResult.returns info (some f)) fs).2.2 = none ∧
    fsGet (download_youtube_audio url output_path random_filename
        (ExtractResult.returns info (some f)) fs).1
        (audio_path_of output_path random_filename) = some f := by
  have hfile :
      fsGet (fsSet fs (audio_path_of output_path random_filename) f)
        (audio_path_of output_path random_filename) = some f :=
    fsGet_fsSet_self fs _ f
  cases ht : dictLookup info "title" with
  | none =>
    rw [download_eq_of_body_error url output_path random_filename _ fs _ []
          _ (download_body_no_title url output_path random_filename info f
            fs ht)]
    exact ⟨rfl, hfile⟩
  | some title =>
    cases hu : dictLookup info "uploader" with
    | none =>
      rw [download_eq_of_body_error url output_path random_filename _ fs _
            [] _ (download_body_no_uploader url output_path random_filename
              info f fs title ht hu)]
      exact ⟨rfl, hfile⟩
    | some uploader =>
      rcases h with h1 | h1
      · rw [ht] at h1; exact absurd h1 (by simp)
      · rw [hu] at h1; exact absurd h1 (by simp)

theorem C9_missing_key_leaves_file_witness :
    (dictLookup [("uploader", "up")] "title" = none ∨
     dictLookup [("uploader", "up")] "uploader" = none) ∧
    (download_youtube_audio "u" "." "id"
        (ExtractResult.returns [("uploader", "up")]
          (some (⟨true, none⟩ : AudioFile))) []).2.2 = none ∧
    fsGet (download_youtube_audio "u" "." "id"
        (ExtractResult.returns [("uploader", "up")]
          (some (⟨true, none⟩ : AudioFile))) []).1
        (audio_path_of "." "id") = some ⟨true, none⟩ :=
  ⟨Or.inl (by decide),
   C9_missing_key_leaves_file "u" "." "id" [("uploader", "up")]
     ⟨true, none⟩ [] (Or.inl (by decide))⟩

/-- C10: a failure inside `add_metadata_to_mp3` never changes the result
of `download_youtube_audio`: with the file on disk but unparsable by the
tag library, the Tagger swallows its own exception and the Fetcher still
returns the full success mapping, while the tags of the file were never
written. -/
theorem C10_tagger_failure_ignored (url output_path random_filename : String)
    (info : InfoDict) (f : AudioFile) (fs : FS) (title uploader : String)
    (ht : dictLookup info "title" = some title)
    (hu : dictLookup info "uploader" = some uploader)
    (hp : f.parsable = false) :
    (download_youtube_audio url output_path random_filename
        (ExtractResult.returns info (some f)) fs).2.2
      = some ⟨audio_path_of output_path random_filename, title, uploader,
              url⟩ ∧
    fsGet (download_youtube_audio url output_path random_filename
        (ExtractResult.returns info (some f)) fs).1
        (audio_path_of output_path random_filename) = some f := by
  have hb := download_body_success url output_path random_filename info f fs
    title uploader ht hu
  rw [download_eq_of_body_ok url output_path random_filename _ fs _ _ _ hb]
  have hget : fsGet (fsSet fs (audio_path_of output_path random_filename) f)
      (audio_path_of output_path random_filename) = some f :=
    fsGet_fsSet_self fs _ f
  have htag := add_metadata_eq_of_body_error
    (fsSet fs (audio_path_of output_path random_filename) f)
    (audio_path_of output_path random_filename)
    ⟨title, uploader, (dictLookup info "description").getD ""⟩ url
    (fsSet fs (audio_path_of output_path random_filename) f) [] _
    (add_metadata_body_unparsable
      (fsSet fs (audio_path_of output_path random_filename) f)
      (audio_path_of output_path random_filename)
      ⟨title, uploader, (dictLookup info "description").getD ""⟩ url f
      hget hp)
  refine ⟨rfl, ?_⟩
  show fsGet (add_metadata_to_mp3
      (fsSet fs (audio_path_of output_path random_filename) f)
      (audio_path_of output_path random_filename)
      ⟨title, uploader, (dictLookup info "description").getD ""⟩ url).1
      (audio_path_of output_path random_filename) = some f
  rw [htag]
  exact hget

theorem C10_tagger_failure_ignored_witness :
    (download_youtube_audio "u" "." "id"
        (ExtractResult.returns [("title", "t"), ("uploader", "up")]
          (some (⟨false, none⟩ : AudioFile))) []).2.2
      = some ⟨audio_path_of "." "id", "t", "up", "u"⟩ ∧
    fsGet (download_youtube_audio "u" "." "id"
        (ExtractResult.returns [("title", "t"), ("uploader", "up")]
          (some (⟨false, none⟩ : AudioFile))) []).1
        (audio_path_of "." "id") = some ⟨false, none⟩ :=
  C10_tagger_failure_ignored "u" "." "id"
    [("title", "t"), ("uploader", "up")] ⟨false, none⟩ [] "t" "up"
    (by decide) (by decide) rfl
/-- C3 (counterexample): the claim "a run that fails (returns None) leaves
no file on disk" is false: starting from an empty filesystem, a run whose
extractor deposits the file but whose info record lacks `title` returns
`none` and still ends with one file on disk. -/
theorem C3_failure_leaves_file_counterexample :
    (download_youtube_audio "u" "." "id"
        (ExtractResult.returns [("uploader", "up")]
          (some (⟨true, none⟩ : AudioFile))) []).2.2 = none ∧
    (download_youtube_audio "u" "." "id"
        (ExtractResult.returns [("uploader", "up")]
          (some (⟨true, none⟩ : AudioFile))) []).1.length = 1 := by
  constructor <;> decide

/-- C3 (amended): starting from an empty filesystem, a successful run ends
with exactly one file on disk; a run that fails before the extractor
deposits the output file ends with zero files; but a run that fails after
the file was deposited (a missing metadata key) leaves that one file. The
file count of the final filesystem equals one exactly when the extractor
deposited the file, independently of success. -/
theorem C3_files_written (url output_path random_filename : String)
    (env : ExtractResult) :
    ((download_youtube_audio url output_path random_filename env []).2.2.isSome
        = true →
      ∃ info f, env = ExtractResult.returns info (some f)) ∧
    (download_youtube_audio url output_path random_filename env []).1.length
      = (match env with
         | ExtractResult.returns _ (some _) => 1
         | _ => 0) := by
  cases env with
  | raises e =>
    rw [download_eq_of_body_error url output_path random_filename _ [] [] []
          e (download_body_raises url output_path random_filename e [])]
    exact ⟨fun h => by simp at h, rfl⟩
  | returns info produced =>
    cases produced with
    | none =>
      have hex : pathExists []
          (audio_path_of output_path random_filename) = false := rfl
      rw [download_eq_of_body_error url output_path random_filename _ [] []
            [] _ (download_body_missing_file url output_path random_filename
              info [] hex)]
      exact ⟨fun h => by simp at h, rfl⟩
    | some f =>
      refine ⟨fun _ => ⟨info, f, rfl⟩, ?_⟩
      have hfs1 : fsSet [] (audio_path_of output_path random_filename) f
          = [(audio_path_of output_path random_filename, f)] := rfl
      cases ht : dictLookup info "title" with
      | none =>
        rw [download_eq_of_body_error url output_path random_filename _ []
              _ [] _ (download_body_no_title url output_path
                random_filename info f [] ht)]
        rw [hfs1]
        rfl
      | some title =>
        cases hu : dictLookup info "uploader" with
        | none =>
          rw [download_eq_of_body_error url output_path random_filename _ []
                _ [] _ (download_body_no_uploader url output_path
                  random_filename info f [] title ht hu)]
          rw [hfs1]
          rfl
        | some uploader =>
          rw [download_eq_of_body_ok url output_path random_filename _ [] _
                _ _ (download_body_success url output_path random_filename
                  info f [] title uploader ht hu)]
          show (add_metadata_to_mp3
              (fsSet [] (audio_path_of output_path random_filename) f)
              (audio_path_of output_path random_filename)
              ⟨title, uploader, (dictLookup info "description").getD ""⟩
              url).1.length = 1
          rw [add_metadata_fs_length, hfs1]
          rfl

theorem C3_files_written_witness :
    (∃ info f,
      ExtractResult.returns [("title", "t"), ("uploader", "up")]
          (some (⟨true, none⟩ : AudioFile))
        = ExtractResult.returns info (some f)) ∧
    (download_youtube_audio "u" "." "id"
        (ExtractResult.returns [("title", "t"), ("uploader", "up")]
          (some (⟨true, none⟩ : AudioFile))) []).1.length = 1 :=
  ⟨(C3_files_written "u" "." "id"
      (ExtractResult.returns [("title", "t"), ("uploader", "up")]
        (some ⟨true, none⟩))).1 (by decide),
   (C3_files_written "u" "." "id"
      (ExtractResult.returns [("title", "t"), ("uploader", "up")]
        (some ⟨true, none⟩))).2⟩

/-- C8: distinct freshly drawn random identifiers give distinct output
paths under the same output directory, so a second invocation of
`download_youtube_audio` never overwrites the file a previous invocation
wrote: the path of the first invocation maps to the same file before and after
the second invocation runs. -/
theorem C8_no_overwrite (url1 url2 output_path rid1 rid2 : String)
    (env1 env2 : ExtractResult) (fs : FS) (h : rid1 ≠ rid2) :
    audio_path_of output_path rid1 ≠ audio_path_of output_path rid2 ∧
    fsGet (download_youtube_audio url2 output_path rid2 env2
            (download_youtube_audio url1 output_path rid1 env1 fs).1).1
        (audio_path_of output_path rid1)
      = fsGet (download_youtube_audio url1 output_path rid1 env1 fs).1
          (audio_path_of output_path rid1) :=
  ⟨audio_path_of_inj output_path rid1 rid2 h,
   download_fsGet_other url2 output_path rid2 env2
     (download_youtube_audio url1 output_path rid1 env1 fs).1
     (audio_path_of output_path rid1)
     (audio_path_of_inj output_path rid1 rid2 h)⟩

theorem C8_no_overwrite_witness :
    audio_path_of "." "id1" ≠ audio_path_of "." "id2" ∧
    fsGet (download_youtube_audio "u2" "." "id2"
            (ExtractResult.returns [("title", "t2"), ("uploader", "a2")]
              (some (⟨true, none⟩ : AudioFile)))
            (download_youtube_audio "u1" "." "id1"
              (ExtractResult.returns [("title", "t1"), ("uploader", "a1")]
                (some (⟨true, none⟩ : AudioFile))) []).1).1
        (audio_path_of "." "id1")
      = fsGet (download_youtube_audio "u1" "." "id1"
            (ExtractResult.returns [("title", "t1"), ("uploader", "a1")]
              (some (⟨true, none⟩ : AudioFile))) []).1
          (audio_path_of "." "id1") :=
  C8_no_overwrite "u1" "u2" "." "id1" "id2"
    (ExtractResult.returns [("title", "t1"), ("uploader", "a1")]
      (some ⟨true, none⟩))
    (ExtractResult.returns [("title", "t2"), ("uploader", "a2")]
      (some ⟨true, none⟩)) [] (by decide)
end YoutubeUtils
